import Mathlib

/-!
Verification of the LogIntel query-translation pipeline.

The pipeline lives in `ui/src/App.js` (`processQuery`, with the inner helpers
`parseTimeRange` and `getDateRangeForDSL`), and the field resolver
(`find_similar_fields` / `validate_field_with_suggestions`) is given in
`.github/copilot-instructions.md`.  This file shallowly embeds those
functions: JavaScript values become an explicit inductive type, the ambient
clock and calendar become an explicit `DateCtx`, external call results become
an explicit `ExternalEnv`, and Python's `list(set(...))` is modelled
parametrically by the predicate `IsPySetList`.
-/

namespace LogIntel

/-- Character-list prefix test (used to embed substring search without
relying on library string primitives). -/
def charsAt : List Char → List Char → Bool
  | [], _ => true
  | _ :: _, [] => false
  | a :: as, b :: bs => a = b && charsAt as bs

/-- `charsIncl needle hay`: does `needle` occur as a contiguous run in `hay`? -/
def charsIncl (needle : List Char) : List Char → Bool
  | [] => needle.isEmpty
  | c :: rest => charsAt needle (c :: rest) || charsIncl needle rest

/-- A string's characters lowercased (embeds `.lower()` /
`.toLowerCase()`; character-level so that it evaluates by reduction). -/
def lowerChars (s : String) : List Char :=
  s.toList.map Char.toLower

/-- Embedding of Python's `needle.lower() in hay.lower()`. -/
def strInclLower (hay needle : String) : Bool :=
  charsIncl (lowerChars needle) (lowerChars hay)

/-- Embedding of JavaScript's `hay.toLowerCase().includes(needle)`. -/
def jsIncludesLower (hay needle : String) : Bool :=
  charsIncl needle.toList (lowerChars hay)

/-- Embedding of JavaScript's `Array.prototype.join(sep)`. -/
def jsJoin (sep : String) : List String → String
  | [] => ""
  | [s] => s
  | s :: rest => s ++ sep ++ jsJoin sep rest

/-- JSON-ish values occurring in the structured interpretation returned by
the NLU service.  The only objects this pipeline ever carries as filter
values are range-shaped objects (string key to numeric bound), so `rangeObj`
carries that shape directly; `App.js` never inspects the inside of an object
filter value, only `typeof value === 'object'`. -/
inductive JsValue where
  | str (s : String)
  | num (n : Int)
  | boolV (b : Bool)
  | rangeObj (entries : List (String × Int))
  | nullV
deriving DecidableEq

/-- Embedding of JavaScript's `typeof value === 'object'` (note that
`typeof null === 'object'` in JavaScript). -/
def isObjectType : JsValue → Bool
  | .rangeObj _ => true
  | .nullV => true
  | _ => false

/-- Embedding of JavaScript template-literal stringification `${value}` for
the value shapes above. -/
def jsTemplateStr : JsValue → String
  | .str s => s
  | .num n => toString n
  | .boolV b => cond b "true" "false"
  | .rangeObj _ => "[object Object]"
  | .nullV => "null"

/-- The ambient clock and local-calendar facts `getDateRangeForDSL` reads:
`new Date()` epoch milliseconds, `new Date(y, m, d)` (start of the current
local calendar day) and `new Date(y, m, d + 1)` (start of the next one).
The calendar arithmetic itself is environment/timezone dependent, so it is
carried as data. -/
structure DateCtx where
  nowMs : Int
  dayStartMs : Int
  nextDayStartMs : Int
deriving DecidableEq

/-- Whether a resolved range's upper bound is the exclusive `lt` key or the
inclusive `lte` key of the emitted range object. -/
inductive UpperKind where
  | lt
  | lte
deriving DecidableEq

/-- A resolved time range `{gte: ..., lt/lte: ...}` as produced by
`getDateRangeForDSL`; timestamps are epoch milliseconds (ISO-8601
serialisation is injective on instants, so the string form is elided). -/
structure DateRange where
  gte : Int
  upperKind : UpperKind
  upper : Int
deriving DecidableEq

def hourMs : Int := 60 * 60 * 1000

/-- Embedding of `getDateRangeForDSL` from `App.js` (the `switch` over the
time-range token; the source has no `yesterday` case, so that token reaches
the `default` branch). -/
def getDateRangeForDSL (ctx : DateCtx) (timeRange : String) : DateRange :=
  if timeRange = "today" then
    { gte := ctx.dayStartMs, upperKind := .lt, upper := ctx.nextDayStartMs }
  else if timeRange = "last_hour" then
    { gte := ctx.nowMs - hourMs, upperKind := .lte, upper := ctx.nowMs }
  else if timeRange = "last_24h" then
    { gte := ctx.nowMs - 24 * hourMs, upperKind := .lte, upper := ctx.nowMs }
  else
    { gte := ctx.nowMs - hourMs, upperKind := .lte, upper := ctx.nowMs }

/-- Embedding of the `timeDesc` ternary chain in the count branch of
`processQuery` (the human-readable period label). -/
def timeDesc (timeRange : Option String) : String :=
  if timeRange = some "today" then "today"
  else if timeRange = some "last_24h" then "last 24 hours"
  else if timeRange = some "last_hour" then "last hour"
  else if timeRange = some "yesterday" then "yesterday"
  else if timeRange = some "last_week" then "last week"
  else "all time"

/-- The tokens the answer formatter labels specially; anything else is
rendered as "all time". -/
def labelTokens : List String :=
  ["today", "last_24h", "last_hour", "yesterday", "last_week"]

/-- Where a range clause's body came from: `raw` is a filter's own object
value passed through verbatim (`mustClauses.push({"range": {"@timestamp":
value}})`), `resolved` is the output of `getDateRangeForDSL`. -/
inductive RangeSpec where
  | raw (v : JsValue)
  | resolved (r : DateRange)
deriving DecidableEq

/-- One member of the query document's `must` array. -/
inductive Clause where
  | term (field : String) (value : JsValue)
  | range (field : String) (spec : RangeSpec)
deriving DecidableEq

def isRangeClause : Clause → Bool
  | .range _ _ => true
  | .term _ _ => false

/-- Is this clause the one produced from the resolved time token? -/
def isResolvedRangeClause : Clause → Bool
  | .range _ (.resolved _) => true
  | _ => false

def hasResolvedRange (cs : List Clause) : Bool :=
  cs.any isResolvedRangeClause

/-- Embedding of the per-filter branch of the `mustClauses` loop in
`processQuery`: a range clause is pushed only when the key is literally
`@timestamp` and the value is object-typed; every other entry becomes a
`term` clause. -/
def filterClause (field : String) (value : JsValue) : Clause :=
  if (field == "@timestamp") && isObjectType value then
    .range "@timestamp" (.raw value)
  else
    .term field value

/-- Embedding of `if (timeRange && timeRange !== 'null')` followed by the
push of the resolved range clause (string truthiness: the empty string is
falsy). -/
def timeClauses (ctx : DateCtx) : Option String → List Clause
  | none => []
  | some t =>
      if (!(t == "")) && (!(t == "null")) then
        [.range "@timestamp" (.resolved (getDateRangeForDSL ctx t))]
      else
        []

/-- The full `mustClauses` array built by `processQuery`: one clause per
filter entry in filter order, then the optional resolved time-range clause. -/
def buildMustClauses (ctx : DateCtx) (filters : List (String × JsValue))
    (timeRange : Option String) : List Clause :=
  (filters.map fun p => filterClause p.1 p.2) ++ timeClauses ctx timeRange

/-- The raw structured interpretation returned by the NLU service
(`geminiResponse.data.result.structured_query`); every field may be absent. -/
structure Interpretation where
  time_range : Option String
  filters : Option (List (String × JsValue))
  query_type : Option String
  description : Option String
deriving DecidableEq

/-- JavaScript `x || default` for a possibly-absent string (both absence and
the empty string are falsy). -/
def jsOr (v : Option String) (default : String) : String :=
  match v with
  | none => default
  | some s => if s = "" then default else s

/-- The normalized interpretation as `processQuery` computes it. -/
structure NormalizedQuery where
  timeRange : Option String
  filters : List (String × JsValue)
  queryType : String
  description : String
deriving DecidableEq

/-- Embedding of the normalization lines of `processQuery`:
`filters || {}`, `query_type || 'count'`, `description || query`. -/
def normalize (query : String) (sq : Interpretation) : NormalizedQuery :=
  { timeRange := sq.time_range
  , filters := sq.filters.getD []
  , queryType := jsOr sq.query_type "count"
  , description := jsOr sq.description query }

/-- An aggregation body. -/
inductive AggSpec where
  | valueCount (field : String)
  | terms (field : String)
deriving DecidableEq

/-- The three fixed aggregations of the count document. -/
def countAggs : List (String × AggSpec) :=
  [ ("total_count", .valueCount "event.action")
  , ("by_channel", .terms "app.channel")
  , ("by_outcome", .terms "event.outcome") ]

/-- The count-path query document: `{"query": {"bool": {"must": ...}},
"size": 0, "aggs": ...}`. -/
structure CountDoc where
  must : List Clause
  size : Nat
  aggs : List (String × AggSpec)
deriving DecidableEq

/-- The value of the `dslQuery` variable at return time: greeting/help set
it to JavaScript `null`, the unsupported branch leaves the initial `{}`, the
count branch builds a full document. -/
inductive DslValue where
  | nullV
  | emptyObj
  | doc (d : CountDoc)
deriving DecidableEq

def isDoc : DslValue → Bool
  | .doc _ => true
  | _ => false

/-- One aggregation bucket (`{key, doc_count}`). -/
structure Bucket where
  key : String
  doc_count : Nat
deriving DecidableEq

/-- Results of the two external calls the count branch makes (search
execution and deep-link construction), supplied as data since the core
treats them as opaque collaborators. -/
structure ExternalEnv where
  totalCount : Nat
  channels : List Bucket
  outcomes : List Bucket
  kibanaLinkResult : String
deriving DecidableEq

/-- Embedding of the answer assembly in the count branch: description line,
total count against the `timeDesc` label, then one bullet list per
non-empty bucket dimension, channel first. -/
def formatAnswer (description : String) (totalCount : Nat)
    (timeRange : Option String) (channels outcomes : List Bucket) : String :=
  let base := description ++ "\n\n**" ++ toString totalCount ++
    "** events found in the " ++ timeDesc timeRange ++ "."
  let a1 :=
    if channels.length > 0 then
      base ++ "\n\nBreakdown by channel:\n" ++
        jsJoin "\n" (channels.map fun c => "- " ++ c.key ++ ": " ++ toString c.doc_count)
    else base
  if outcomes.length > 0 then
    a1 ++ "\n\nBreakdown by outcome:\n" ++
      jsJoin "\n" (outcomes.map fun c => "- " ++ c.key ++ ": " ++ toString c.doc_count)
  else a1

/-- One `field:"value"` atom of the Kibana KQL expression. -/
def kqlAtom (field : String) (value : JsValue) : String :=
  field ++ ":\x22" ++ jsTemplateStr value ++ "\x22"

/-- Embedding of the KQL construction in the count branch:
`Object.entries(filters).map(([f, v]) => ...).join(' AND ')` with the
match-all `*` fallback when the joined string is empty (falsy). -/
def kqlQueryOf (filters : List (String × JsValue)) : String :=
  if jsJoin " AND " (filters.map fun p => kqlAtom p.1 p.2) = "" then "*"
  else jsJoin " AND " (filters.map fun p => kqlAtom p.1 p.2)

/-- Embedding of the index-pattern keyword sniffing over the raw question. -/
def indexPatternFor (query : String) : String :=
  if jsIncludesLower query "auth" || jsIncludesLower query "login" then "logs-auth-*"
  else if jsIncludesLower query "payment" then "logs-payment-*"
  else if jsIncludesLower query "mobile" then "logs-mobile-*"
  else "logs-*"

/-- The canned greeting answer (verbatim from the greeting branch). -/
def greetingAnswer : String :=
  "Hello! 👋 I'm LogWell, your log analytics assistant. I can help you analyze your banking system logs.\n\nTry asking me questions like:\n\n• \x22How many failed logins were there today?\x22\n• \x22Show me mobile authentication failures in the last 24 hours\x22\n• \x22What are the payment processing errors?\x22\n\nWhat would you like to know about your logs?"

/-- The canned help answer (verbatim from the help branch). -/
def helpAnswer : String :=
  "I'm here to help you analyze your banking system logs! 📊\n\nI can answer questions about:\n\n🔐 **Authentication & Logins**\n• Failed/successful login attempts\n• Mobile, online, and IVR channels\n• Time-based analysis (today, yesterday, last 24 hours, etc.)\n\n💳 **Payment Processing**\n• Transaction successes and failures\n• Payment methods and channels\n• Error analysis and trends\n\n📱 **App Channels**\n• Mobile app activity\n• Online banking usage\n• IVR system interactions\n\n💡 **Example Queries:**\n• \x22failed logins on mobile today\x22\n• \x22total payment failures yesterday\x22\n• \x22authentication errors in last 24 hours\x22\n• \x22successful transactions by channel\x22\n\nWhat would you like to explore?"

/-- The guidance answer of the unsupported branch (verbatim, with the
description interpolated). -/
def unsupportedAnswer (description : String) : String :=
  "I understood your query as: \x22" ++ description ++
  "\x22\n\nHowever, I can currently only handle count queries. Try asking about:\n\n• Failed logins (mobile, online, ivr)\n• Authentication events\n• Payment processing\n• App channel activity\n\nFor example: \x22how many failed logins today\x22 or \x22show me authentication failures in last 24 hours\x22"

/-- The externally visible outcome of one `processQuery` run, together with
which external calls the run performed. -/
structure PipelineResult where
  answer : String
  kibanaLink : Option String
  dsl : DslValue
  searchCalled : Bool
  kibanaCalled : Bool
deriving DecidableEq

/-- Embedding of the dispatch of `processQuery` after interpretation:
normalization, `mustClauses` assembly, then the greeting / help / count /
unsupported branches.  `ctx` supplies the ambient clock, `env` the results
of the external search-execution and link-construction calls (only the
count branch performs them). -/
def processQuery (ctx : DateCtx) (env : ExternalEnv) (query : String)
    (sq : Interpretation) : PipelineResult :=
  let nq := normalize query sq
  let mustClauses := buildMustClauses ctx nq.filters nq.timeRange
  if nq.queryType = "greeting" then
    { answer := greetingAnswer, kibanaLink := none, dsl := .nullV
    , searchCalled := false, kibanaCalled := false }
  else if nq.queryType = "help" then
    { answer := helpAnswer, kibanaLink := none, dsl := .nullV
    , searchCalled := false, kibanaCalled := false }
  else if nq.queryType = "count" then
    { answer := formatAnswer nq.description env.totalCount nq.timeRange
        env.channels env.outcomes
    , kibanaLink := some env.kibanaLinkResult
    , dsl := .doc { must := mustClauses, size := 0, aggs := countAggs }
    , searchCalled := true, kibanaCalled := true }
  else
    { answer := unsupportedAnswer nq.description, kibanaLink := none
    , dsl := .emptyObj, searchCalled := false, kibanaCalled := false }

/-! ## Field resolver (from `.github/copilot-instructions.md`) -/

/-- Per-field metadata; `synonyms = none` models a metadata dict without a
`"synonyms"` key. -/
structure FieldMeta where
  synonyms : Option (List String)
deriving DecidableEq

def synList (m : FieldMeta) : List String :=
  m.synonyms.getD []

/-- The appends the synonym loop of `find_similar_fields` performs for one
schema entry (the canonical field name is appended once per matching
synonym, so duplicates are possible). -/
def synMatches (target : String) (field : String) (meta : FieldMeta) : List String :=
  match meta.synonyms with
  | some syns =>
      syns.filterMap fun syn =>
        if strInclLower syn target then some field else none
  | none => []

/-- The `suggestions` list `find_similar_fields` accumulates before its
final `list(set(suggestions))`: for each schema entry in declaration order,
the field name if the target occurs in it case-insensitively, then one copy
per matching synonym. -/
def find_similar_fields_raw (target : String) :
    List (String × FieldMeta) → List String
  | [] => []
  | fm :: rest =>
      (if strInclLower fm.1 target then [fm.1] else []) ++
        synMatches target fm.1 fm.2 ++ find_similar_fields_raw target rest

/-- `IsPySetList xs ys` holds exactly when `ys` is a possible value of
Python's `list(set(xs))`: duplicate-free and containing precisely the
elements of `xs`, in some unspecified order. -/
def IsPySetList (xs ys : List String) : Prop :=
  ys.Nodup ∧ (∀ s ∈ ys, s ∈ xs) ∧ (∀ s ∈ xs, s ∈ ys)

inductive FieldStatus where
  | valid
  | suggested
  | unknown
deriving DecidableEq

/-- The observable outcome of `validate_field_with_suggestions`: `valid`
(field accepted as-is), `suggested` (rejected, with the `suggestions[:3]`
shown in the error message), or `unknown` (rejected with no suggestions). -/
structure FieldResolution where
  status : FieldStatus
  shown : List String
deriving DecidableEq

def fieldKeys (avail : List (String × FieldMeta)) : List String :=
  avail.map Prod.fst

/-- Embedding of `validate_field_with_suggestions`, parametrized by the
list `suggestions` actually returned by `find_similar_fields` (that is, by
one admissible `list(set(...))` ordering of `find_similar_fields_raw`). -/
def validate_field_with_suggestions (fieldName : String)
    (avail : List (String × FieldMeta)) (suggestions : List String) :
    FieldResolution :=
  if fieldName ∈ fieldKeys avail then { status := .valid, shown := [] }
  else if suggestions ≠ [] then { status := .suggested, shown := suggestions.take 3 }
  else { status := .unknown, shown := [] }

/-- Does the candidate name case-insensitively occur in some schema field
name or one of that field's synonyms? -/
def matchesSchema (target : String) (avail : List (String × FieldMeta)) : Prop :=
  ∃ p ∈ avail, strInclLower p.1 target = true ∨
    ∃ syn ∈ synList p.2, strInclLower syn target = true

instance (target : String) (avail : List (String × FieldMeta)) :
    Decidable (matchesSchema target avail) := by
  unfold matchesSchema
  infer_instance

/-- Modelled from the claim's words, for comparison only: the suggestion
list the claim describes — deduplicated keeping first occurrences (hence
schema-declaration order) and capped at 3. -/
def orderedDedupAux (seen : List String) : List String → List String
  | [] => []
  | x :: xs =>
      if x ∈ seen then orderedDedupAux seen xs
      else x :: orderedDedupAux (x :: seen) xs

/-- Modelled from the claim's words, for comparison only: see
`orderedDedupAux`. -/
def claimOrderedSuggestions (target : String)
    (avail : List (String × FieldMeta)) : List String :=
  (orderedDedupAux [] (find_similar_fields_raw target avail)).take 3

/-! ## Concrete fixtures -/

/-- A concrete clock: some instant with its surrounding local-day bounds. -/
def ctx0 : DateCtx :=
  { nowMs := 1000000000, dayStartMs := 999900000, nextDayStartMs := 1086300000 }

/-- Concrete external-call results. -/
def env0 : ExternalEnv :=
  { totalCount := 5
  , channels := [{ key := "mobile", doc_count := 3 }]
  , outcomes := [{ key := "failure", doc_count := 5 }]
  , kibanaLinkResult := "http://localhost:5601/app/discover" }

/-- Schema snapshot consisting of the ECS fields the pipeline itself
queries and aggregates on in `App.js`. -/
def demoSchema : List (String × FieldMeta) :=
  [ ("event.action", { synonyms := none })
  , ("app.channel", { synonyms := none })
  , ("event.outcome", { synonyms := none }) ]

/-- A two-field schema in which the candidate name "channel" matches both
fields, exposing the suggestion ordering. -/
def availPair : List (String × FieldMeta) :=
  [ ("app.channel", { synonyms := none })
  , ("event.channel_id", { synonyms := none }) ]

/-- An interpretation carrying a filter key that has no schema match. -/
def sqC1 : Interpretation :=
  { time_range := none
  , filters := some [("chanel", .str "mobile")]
  , query_type := some "count"
  , description := some "failed logins" }

/-- An interpretation whose query type is outside the closed set. -/
def sqOther : Interpretation :=
  { time_range := none, filters := none, query_type := some "search"
  , description := none }

/-- A greeting interpretation. -/
def sqGreeting : Interpretation :=
  { time_range := none, filters := none, query_type := some "greeting"
  , description := none }

/-- A gte/lte-shaped object value on a non-timestamp field. -/
def rangeVal : JsValue := .rangeObj [("gte", 1), ("lte", 5)]

/-! ## Helper lemmas -/

lemma isResolvedRangeClause_filterClause (f : String) (v : JsValue) :
    isResolvedRangeClause (filterClause f v) = false := by
  unfold filterClause
  split <;> rfl

lemma hasResolvedRange_of_empty_timeClauses (ctx : DateCtx)
    (filters : List (String × JsValue)) (o : Option String)
    (h : timeClauses ctx o = []) :
    hasResolvedRange (buildMustClauses ctx filters o) = false := by
  unfold hasResolvedRange buildMustClauses
  rw [h, List.append_nil]
  simp only [List.any_map, List.any_eq_false, Function.comp, List.mem_map,
    forall_exists_index, and_imp, Prod.forall]
  intro c f v _ hc
  simp [← hc, isResolvedRangeClause_filterClause]

lemma three_le_length_kqlAtom (f : String) (v : JsValue) :
    3 ≤ (kqlAtom f v).length := by
  unfold kqlAtom
  rw [String.length_append, String.length_append, String.length_append]
  have h1 : (":\x22" : String).length = 2 := rfl
  have h2 : ("\x22" : String).length = 1 := rfl
  omega

lemma le_length_jsJoin (x : String) (xs : List String) :
    x.length ≤ (jsJoin " AND " (x :: xs)).length := by
  cases xs with
  | nil => simp [jsJoin]
  | cons y ys =>
      show x.length ≤ (x ++ " AND " ++ jsJoin " AND " (y :: ys)).length
      rw [String.length_append, String.length_append]
      omega

lemma mem_synMatches (target field s : String) (meta : FieldMeta) :
    s ∈ synMatches target field meta ↔
      (s = field ∧ ∃ syn ∈ synList meta, strInclLower syn target = true) := by
  cases h : meta.synonyms with
  | none => simp [synMatches, synList, h]
  | some syns =>
      simp only [synMatches, h, List.mem_filterMap, synList, Option.getD_some]
      constructor
      · rintro ⟨syn, hsyn, hf⟩
        by_cases hc : strInclLower syn target = true
        · rw [if_pos hc] at hf
          exact ⟨(Option.some.inj hf).symm, syn, hsyn, hc⟩
        · rw [if_neg hc] at hf
          cases hf
      · rintro ⟨rfl, syn, hsyn, hc⟩
        exact ⟨syn, hsyn, by rw [if_pos hc]⟩

lemma mem_find_similar_fields_raw (target s : String)
    (avail : List (String × FieldMeta)) :
    s ∈ find_similar_fields_raw target avail ↔
      ∃ m, (s, m) ∈ avail ∧ (strInclLower s target = true ∨
        ∃ syn ∈ synList m, strInclLower syn target = true) := by
  induction avail with
  | nil => simp [find_similar_fields_raw]
  | cons fm rest ih =>
      simp only [find_similar_fields_raw, List.mem_append, ih, mem_synMatches,
        List.mem_cons]
      constructor
      · rintro ((h1 | ⟨rfl, hsyn⟩) | ⟨m, hm, hmatch⟩)
        · by_cases hc : strInclLower fm.1 target = true
          · rw [if_pos hc] at h1
            simp only [List.mem_singleton] at h1
            subst h1
            exact ⟨fm.2, Or.inl rfl, Or.inl hc⟩
          · rw [if_neg hc] at h1
            cases h1
        · exact ⟨fm.2, Or.inl rfl, Or.inr hsyn⟩
        · exact ⟨m, Or.inr hm, hmatch⟩
      · rintro ⟨m, (heq | hm), hmatch⟩
        · have hs : s = fm.1 := by rw [← heq]
          have hm2 : m = fm.2 := by rw [← heq]
          subst hs
          subst hm2
          rcases hmatch with hn | hsyn
          · refine Or.inl (Or.inl ?_)
            rw [if_pos hn]
            exact List.mem_singleton_self _
          · exact Or.inl (Or.inr ⟨rfl, hsyn⟩)
        · exact Or.inr ⟨m, hm, hmatch⟩

lemma matchesSchema_iff_raw_ne_nil (target : String)
    (avail : List (String × FieldMeta)) :
    matchesSchema target avail ↔ find_similar_fields_raw target avail ≠ [] := by
  constructor
  · rintro ⟨p, hp, hmatch⟩
    have hmem : p.1 ∈ find_similar_fields_raw target avail := by
      rw [mem_find_similar_fields_raw]
      exact ⟨p.2, hp, hmatch⟩
    intro hnil
    rw [hnil] at hmem
    cases hmem
  · intro hne
    obtain ⟨x, xs, hx⟩ := List.exists_cons_of_ne_nil hne
    have hxmem : x ∈ find_similar_fields_raw target avail := by
      rw [hx]
      exact List.mem_cons_self x xs
    rw [mem_find_similar_fields_raw] at hxmem
    obtain ⟨m, hm, hmatch⟩ := hxmem
    exact ⟨(x, m), hm, hmatch⟩

/-! ## Claim theorems -/

/-- Claim C4 counterexample: with the candidate "channel" against a schema
declaring `app.channel` before `event.channel_id`, the reversed suggestion
list is an admissible value of Python's `list(set(...))`, and the resolver
then shows the suggestions in an order that is NOT the schema-declaration
order the claim promises (the order the claim demands is computed by
`claimOrderedSuggestions`). -/
theorem c4_set_dedup_breaks_schema_order :
    IsPySetList (find_similar_fields_raw "channel" availPair)
      ["event.channel_id", "app.channel"] ∧
    validate_field_with_suggestions "channel" availPair
        ["event.channel_id", "app.channel"] =
      { status := .suggested, shown := ["event.channel_id", "app.channel"] } ∧
    claimOrderedSuggestions "channel" availPair =
      ["app.channel", "event.channel_id"] ∧
    (["event.channel_id", "app.channel"] : List String) ≠
      claimOrderedSuggestions "channel" availPair := by
  refine ⟨⟨by decide, by decide, by decide⟩, by decide, by decide, by decide⟩

/-- Claim C4 as amended: for a candidate name absent from the schema, the
resolver yields `suggested` with at most 3 deduplicated suggestions, each of
which case-insensitively substring-matches a schema field name or one of its
synonyms, whenever any such match exists, and `unknown` when nothing
matches; but the order of the suggestions is the unspecified order of
Python's `list(set(...))`, not the schema-declaration order. -/
theorem c4_resolver_on_miss (target : String)
    (avail : List (String × FieldMeta)) (ys : List String)
    (habs : target ∉ fieldKeys avail)
    (hset : IsPySetList (find_similar_fields_raw target avail) ys) :
    (matchesSchema target avail →
      validate_field_with_suggestions target avail ys =
        { status := .suggested, shown := ys.take 3 } ∧
      (ys.take 3).length ≤ 3 ∧
      (ys.take 3).Nodup ∧
      ∀ s ∈ ys.take 3, ∃ m, (s, m) ∈ avail ∧ (strInclLower s target = true ∨
        ∃ syn ∈ synList m, strInclLower syn target = true)) ∧
    (¬ matchesSchema target avail →
      validate_field_with_suggestions target avail ys =
        { status := .unknown, shown := [] }) := by
  obtain ⟨hnd, hsub, hsup⟩ := hset
  constructor
  · intro hmatch
    have hraw := (matchesSchema_iff_raw_ne_nil target avail).mp hmatch
    obtain ⟨x, xs, hx⟩ := List.exists_cons_of_ne_nil hraw
    have hxys : x ∈ ys := hsup x (by rw [hx]; exact List.mem_cons_self x xs)
    have hysne : ys ≠ [] := by
      intro h
      rw [h] at hxys
      cases hxys
    have hval : validate_field_with_suggestions target avail ys =
        { status := .suggested, shown := ys.take 3 } := by
      unfold validate_field_with_suggestions
      rw [if_neg habs, if_pos hysne]
    refine ⟨hval, ?_, List.Nodup.sublist (List.take_sublist 3 ys) hnd, ?_⟩
    · simp [List.length_take]
    · intro s hs
      exact (mem_find_similar_fields_raw target s avail).mp
        (hsub s (List.mem_of_mem_take hs))
  · intro hmatch
    have hraw : find_similar_fields_raw target avail = [] := by
      by_contra hne
      exact hmatch ((matchesSchema_iff_raw_ne_nil target avail).mpr hne)
    have hys : ys = [] := by
      rw [List.eq_nil_iff_forall_not_mem]
      intro a ha
      have hmem := hsub a ha
      rw [hraw] at hmem
      cases hmem
    unfold validate_field_with_suggestions
    rw [if_neg habs, hys]
    simp

/-- Witness for C4: the candidate "channel" against `availPair`, with the
schema-ordered set list. -/
theorem c4_resolver_on_miss_witness :
    validate_field_with_suggestions "channel" availPair
        ["app.channel", "event.channel_id"] =
      { status := .suggested
      , shown := (["app.channel", "event.channel_id"] : List String).take 3 } ∧
    ((["app.channel", "event.channel_id"] : List String).take 3).Nodup := by
  have h := (c4_resolver_on_miss "channel" availPair
    ["app.channel", "event.channel_id"] (by decide)
    ⟨by decide, by decide, by decide⟩).1 (by decide)
  exact ⟨h.1, h.2.2.1⟩

/-- Claim C8: the deep-link filter expression conjoins one
`field:"value"` atom per filter with " AND " in filter order, and equals
the match-all wildcard `*` exactly when the filter mapping is empty. -/
theorem c8_kql_conjunction (filters : List (String × JsValue)) :
    (kqlQueryOf filters = "*" ↔ filters = []) ∧
    (filters ≠ [] →
      kqlQueryOf filters =
        jsJoin " AND " (filters.map fun p => kqlAtom p.1 p.2)) := by
  cases filters with
  | nil =>
      exact ⟨⟨fun _ => rfl, fun _ => rfl⟩, fun h => absurd rfl h⟩
  | cons p ps =>
      have h3 : 3 ≤ (jsJoin " AND "
          ((p :: ps).map fun q => kqlAtom q.1 q.2)).length := by
        rw [List.map_cons]
        exact le_trans (three_le_length_kqlAtom p.1 p.2) (le_length_jsJoin _ _)
      have hne : jsJoin " AND " ((p :: ps).map fun q => kqlAtom q.1 q.2) ≠ "" := by
        intro h
        rw [h] at h3
        exact absurd h3 (by decide)
      have heq : kqlQueryOf (p :: ps) =
          jsJoin " AND " ((p :: ps).map fun q => kqlAtom q.1 q.2) := by
        unfold kqlQueryOf
        rw [if_neg hne]
      refine ⟨⟨fun hstar => ?_, fun h => (List.cons_ne_nil p ps h).elim⟩,
        fun _ => heq⟩
      exfalso
      rw [heq] at hstar
      rw [hstar] at h3
      exact absurd h3 (by decide)

/-- Witness for C8: two scalar filters, and the empty mapping. -/
theorem c8_kql_conjunction_witness :
    kqlQueryOf [("event.outcome", JsValue.str "failure"),
        ("app.channel", JsValue.str "mobile")] =
      jsJoin " AND "
        ([("event.outcome", JsValue.str "failure"),
          ("app.channel", JsValue.str "mobile")].map fun p => kqlAtom p.1 p.2) ∧
    kqlQueryOf [] = "*" :=
  ⟨(c8_kql_conjunction _).2 (by decide), (c8_kql_conjunction []).1.mpr rfl⟩

/-- Claim C3: the spec's time-range table sends `yesterday` to the bounds of
the previous calendar day, and the code's own answer formatter and help text
advertise `yesterday`; but `getDateRangeForDSL` has no `yesterday` case, so
the token takes the unrecognized-token fallback and resolves to the
last-hour bounds, exactly as `last_hour` does, while the answer is labelled
"yesterday". -/
theorem c3_yesterday_resolved_as_last_hour (ctx : DateCtx) :
    getDateRangeForDSL ctx "yesterday" =
      { gte := ctx.nowMs - hourMs, upperKind := .lte, upper := ctx.nowMs } ∧
    getDateRangeForDSL ctx "yesterday" = getDateRangeForDSL ctx "last_hour" ∧
    timeDesc (some "yesterday") = "yesterday" :=
  ⟨rfl, rfl, rfl⟩

/-- Claim C10: the resolved upper bound is the exclusive `lt` at the start
of the next calendar day for `today`, and the inclusive `lte` at the current
instant for `last_hour`, `last_24h`, and every unrecognized token taking the
fallback — so bound inclusivity is token-dependent. -/
theorem c10_upper_bound_inclusivity (ctx : DateCtx) (t : String)
    (h1 : t ≠ "today") (h2 : t ≠ "last_hour") (h3 : t ≠ "last_24h") :
    (getDateRangeForDSL ctx "today").upperKind = .lt ∧
    (getDateRangeForDSL ctx "today").upper = ctx.nextDayStartMs ∧
    (getDateRangeForDSL ctx "last_hour").upperKind = .lte ∧
    (getDateRangeForDSL ctx "last_hour").upper = ctx.nowMs ∧
    (getDateRangeForDSL ctx "last_24h").upperKind = .lte ∧
    (getDateRangeForDSL ctx "last_24h").upper = ctx.nowMs ∧
    (getDateRangeForDSL ctx t).upperKind = .lte ∧
    (getDateRangeForDSL ctx t).upper = ctx.nowMs := by
  refine ⟨rfl, rfl, rfl, rfl, rfl, rfl, ?_, ?_⟩ <;>
    simp [getDateRangeForDSL, h1, h2, h3]

/-- Witness for C10 at the concrete clock `ctx0` and the token `yesterday`
(which takes the fallback). -/
theorem c10_upper_bound_inclusivity_witness :
    (getDateRangeForDSL ctx0 "today").upperKind = .lt ∧
    (getDateRangeForDSL ctx0 "today").upper = ctx0.nextDayStartMs ∧
    (getDateRangeForDSL ctx0 "last_hour").upperKind = .lte ∧
    (getDateRangeForDSL ctx0 "last_hour").upper = ctx0.nowMs ∧
    (getDateRangeForDSL ctx0 "last_24h").upperKind = .lte ∧
    (getDateRangeForDSL ctx0 "last_24h").upper = ctx0.nowMs ∧
    (getDateRangeForDSL ctx0 "yesterday").upperKind = .lte ∧
    (getDateRangeForDSL ctx0 "yesterday").upper = ctx0.nowMs :=
  c10_upper_bound_inclusivity ctx0 "yesterday" (by decide) (by decide) (by decide)

/-- Claim C5 counterexample: a `{gte/lte}`-shaped object value on the
non-timestamp field `duration` does NOT become a range clause — the loop
emits a range clause only for the `@timestamp` key, and every other filter
entry becomes a term clause, object-valued or not. -/
theorem c5_nontimestamp_range_object_becomes_term :
    isObjectType rangeVal = true ∧
    buildMustClauses ctx0 [("duration", rangeVal)] none =
      [.term "duration" rangeVal] ∧
    ((buildMustClauses ctx0 [("duration", rangeVal)] none).all
      fun c => !isRangeClause c) = true := by
  refine ⟨by decide, by decide, by decide⟩

/-- Claim C5 as amended: each scalar filter becomes exactly one term clause;
an object-valued filter becomes a range clause only when its key is
`@timestamp` (otherwise it also becomes a term clause); and the resolved
time range, when active, is appended as one additional range clause on
`@timestamp`. -/
theorem c5_clause_shapes (ctx : DateCtx) (filters : List (String × JsValue))
    (t : String) (h1 : t ≠ "") (h2 : t ≠ "null") :
    buildMustClauses ctx filters (some t) =
      (filters.map fun p => filterClause p.1 p.2) ++
        [.range "@timestamp" (.resolved (getDateRangeForDSL ctx t))] ∧
    (∀ f v, isObjectType v = false → filterClause f v = .term f v) ∧
    (∀ f v, isObjectType v = true →
      filterClause f v =
        if f = "@timestamp" then .range "@timestamp" (.raw v)
        else .term f v) := by
  refine ⟨?_, ?_, ?_⟩
  · unfold buildMustClauses timeClauses
    simp [h1, h2]
  · intro f v hv
    unfold filterClause
    rw [hv]
    simp
  · intro f v hv
    unfold filterClause
    rw [hv]
    by_cases hf : f = "@timestamp" <;> simp [hf]

/-- Witness for C5: one scalar filter plus the `today` token. -/
theorem c5_clause_shapes_witness :
    buildMustClauses ctx0 [("event.outcome", .str "failure")] (some "today") =
      ([("event.outcome", JsValue.str "failure")].map
          fun p => filterClause p.1 p.2) ++
        [.range "@timestamp" (.resolved (getDateRangeForDSL ctx0 "today"))] :=
  (c5_clause_shapes ctx0 [("event.outcome", .str "failure")] "today"
    (by decide) (by decide)).1

/-- Claim C6: a null/absent token and the string "null" yield no
resolver-produced time-range clause at all, and for every token the
resolved range has `from < to` (given that the local calendar's next-day
boundary lies after the current day's start). -/
theorem c6_all_time_and_ordered_bounds (ctx : DateCtx)
    (hday : ctx.dayStartMs < ctx.nextDayStartMs) :
    (∀ filters : List (String × JsValue),
      hasResolvedRange (buildMustClauses ctx filters none) = false ∧
      hasResolvedRange (buildMustClauses ctx filters (some "null")) = false) ∧
    (∀ t : String,
      (getDateRangeForDSL ctx t).gte < (getDateRangeForDSL ctx t).upper) := by
  constructor
  · intro filters
    exact ⟨hasResolvedRange_of_empty_timeClauses ctx filters none rfl,
      hasResolvedRange_of_empty_timeClauses ctx filters (some "null") rfl⟩
  · intro t
    unfold getDateRangeForDSL
    split_ifs <;> dsimp only [hourMs] <;> omega

/-- Witness for C6 at the concrete clock `ctx0`. -/
theorem c6_all_time_and_ordered_bounds_witness :
    hasResolvedRange (buildMustClauses ctx0 [] none) = false ∧
    hasResolvedRange (buildMustClauses ctx0 [] (some "null")) = false ∧
    (getDateRangeForDSL ctx0 "today").gte < (getDateRangeForDSL ctx0 "today").upper := by
  have h := c6_all_time_and_ordered_bounds ctx0 (by decide)
  exact ⟨(h.1 []).1, (h.1 []).2, h.2 "today"⟩

/-- Claim C9 counterexample: the token "null" lies outside the label set,
so the formatted answer says "all time", but — contrary to the claim — the
built document contains no range clause at all for it (it is excluded by
the `timeRange !== 'null'` guard), not a last-hour range clause. -/
theorem c9_null_token_all_time_without_range_clause :
    "null" ∉ labelTokens ∧
    timeDesc (some "null") = "all time" ∧
    buildMustClauses ctx0 [("event.outcome", .str "failure")] (some "null") =
      [.term "event.outcome" (.str "failure")] ∧
    ((buildMustClauses ctx0 [("event.outcome", .str "failure")] (some "null")).all
      fun c => !isRangeClause c) = true ∧
    formatAnswer "failed logins" 5 (some "null") [] [] =
      "failed logins\n\n**5** events found in the all time." := by
  refine ⟨by decide, by decide, by decide, by decide, by decide⟩

/-- Claim C9 as amended: for every nonempty time token outside the label
set and different from the string "null", the answer is phrased against
"all time" while the document still carries a range clause bounding the
last hour; the "null" and empty tokens also read "all time" but carry no
range clause. -/
theorem c9_label_vs_bound (ctx : DateCtx) (t : String)
    (filters : List (String × JsValue))
    (hnot : t ∉ labelTokens) (hne : t ≠ "") (hnull : t ≠ "null") :
    timeDesc (some t) = "all time" ∧
    getDateRangeForDSL ctx t = getDateRangeForDSL ctx "last_hour" ∧
    buildMustClauses ctx filters (some t) =
      (filters.map fun p => filterClause p.1 p.2) ++
        [.range "@timestamp" (.resolved
          { gte := ctx.nowMs - hourMs, upperKind := .lte, upper := ctx.nowMs })] := by
  simp only [labelTokens, List.mem_cons, List.not_mem_nil, or_false, not_or] at hnot
  obtain ⟨h1, h2, h3, h4, h5⟩ := hnot
  refine ⟨?_, ?_, ?_⟩
  · simp [timeDesc, h1, h2, h3, h4, h5]
  · simp [getDateRangeForDSL, h1, h2, h3]
  · unfold buildMustClauses timeClauses
    simp [hne, hnull, getDateRangeForDSL, h1, h2, h3]

/-- Claim C1: the claim (and the repository's own instructions) require
every filter key to be resolved against the schema before DSL construction,
with `unknown` aborting the request; but `processQuery` performs no field
resolution at all — the key "chanel", which the repository's own resolver
classifies `unknown` against the fields the pipeline queries, is placed
verbatim into the built document's must clauses and the search engine is
still called. -/
theorem c1_unknown_filter_key_reaches_search_engine :
    ¬ matchesSchema "chanel" demoSchema ∧
    find_similar_fields_raw "chanel" demoSchema = [] ∧
    validate_field_with_suggestions "chanel" demoSchema [] =
      { status := .unknown, shown := [] } ∧
    (processQuery ctx0 env0 "how many failed logins" sqC1).dsl =
      .doc { must := [.term "chanel" (.str "mobile")], size := 0
           , aggs := countAggs } ∧
    (processQuery ctx0 env0 "how many failed logins" sqC1).searchCalled = true := by
  refine ⟨by decide, by decide, by decide, by decide, by decide⟩

/-- Claim C2 counterexample: an interpretation with no `query_type` at all
normalizes to "count" — not to "unsupported" as the claim states — and the
request is then processed as a count query (the search engine is called). -/
theorem c2_absent_query_type_maps_to_count :
    (normalize "q" { time_range := none, filters := none, query_type := none
                   , description := none }).queryType = "count" ∧
    (normalize "q" { time_range := none, filters := none, query_type := none
                   , description := none }).queryType ≠ "unsupported" ∧
    (processQuery ctx0 env0 "q"
      { time_range := none, filters := none, query_type := none
      , description := none }).searchCalled = true := by
  refine ⟨by decide, by decide, by decide⟩

/-- Claim C2 as amended: a missing `filters` field becomes an empty mapping
and a missing or empty `description` falls back to the raw question, as
claimed; but a missing or empty `queryType` maps to "count" (not
"unsupported"), and a present value outside {count, greeting, help} is kept
unchanged and dispatched to the unsupported branch. -/
theorem c2_normalization (query : String) (sq : Interpretation)
    (ctx : DateCtx) (env : ExternalEnv) :
    (sq.filters = none → (normalize query sq).filters = []) ∧
    ((sq.description = none ∨ sq.description = some "") →
      (normalize query sq).description = query) ∧
    ((sq.query_type = none ∨ sq.query_type = some "") →
      (normalize query sq).queryType = "count") ∧
    (∀ t : String, sq.query_type = some t → t ≠ "" →
      t ∉ (["count", "greeting", "help"] : List String) →
      (normalize query sq).queryType = t ∧
      (processQuery ctx env query sq).dsl = .emptyObj ∧
      (processQuery ctx env query sq).answer =
        unsupportedAnswer (normalize query sq).description) := by
  refine ⟨?_, ?_, ?_, ?_⟩
  · intro h
    simp [normalize, h]
  · rintro (h | h) <;> simp [normalize, jsOr, h]
  · rintro (h | h) <;> simp [normalize, jsOr, h]
  · intro t ht hne hnotin
    simp only [List.mem_cons, List.not_mem_nil, or_false, not_or] at hnotin
    obtain ⟨hc, hg, hh⟩ := hnotin
    have hq : (normalize query sq).queryType = t := by
      simp [normalize, jsOr, ht, hne]
    refine ⟨hq, ?_, ?_⟩ <;>
      · unfold processQuery
        simp [hq, hc, hg, hh]

/-- Witness for C2 at an interpretation whose `query_type` is "search". -/
theorem c2_normalization_witness :
    (normalize "q" sqOther).filters = [] ∧
    (normalize "q" sqOther).description = "q" ∧
    (normalize "q" sqOther).queryType = "search" ∧
    (processQuery ctx0 env0 "q" sqOther).dsl = .emptyObj ∧
    (processQuery ctx0 env0 "q" sqOther).answer = unsupportedAnswer "q" := by
  have h := c2_normalization "q" sqOther ctx0 env0
  have h4 := h.2.2.2 "search" rfl (by decide) (by decide)
  refine ⟨h.1 rfl, h.2.1 (Or.inl rfl), h4.1, h4.2.1, ?_⟩
  have hd : (normalize "q" sqOther).description = "q" := h.2.1 (Or.inl rfl)
  rw [h4.2.2, hd]

/-- Claim C7: greeting and help intents produce no query document, no
search-engine call, no deep-link call and no deep link; an intent outside
{greeting, help, count} likewise produces no document and yields the
guidance answer echoing the description. -/
theorem c7_non_count_intents (ctx : DateCtx) (env : ExternalEnv)
    (query : String) (sq : Interpretation) :
    (((normalize query sq).queryType = "greeting" ∨
      (normalize query sq).queryType = "help") →
      (processQuery ctx env query sq).dsl = .nullV ∧
      isDoc (processQuery ctx env query sq).dsl = false ∧
      (processQuery ctx env query sq).searchCalled = false ∧
      (processQuery ctx env query sq).kibanaCalled = false ∧
      (processQuery ctx env query sq).kibanaLink = none) ∧
    ((normalize query sq).queryType ≠ "greeting" →
      (normalize query sq).queryType ≠ "help" →
      (normalize query sq).queryType ≠ "count" →
      (processQuery ctx env query sq).dsl = .emptyObj ∧
      isDoc (processQuery ctx env query sq).dsl = false ∧
      (processQuery ctx env query sq).searchCalled = false ∧
      (processQuery ctx env query sq).kibanaCalled = false ∧
      (processQuery ctx env query sq).kibanaLink = none ∧
      (processQuery ctx env query sq).answer =
        unsupportedAnswer (normalize query sq).description) := by
  constructor
  · rintro (h | h) <;>
      · unfold processQuery
        simp [h, isDoc]
  · intro h1 h2 h3
    unfold processQuery
    simp [h1, h2, h3, isDoc]

/-- Witness for C7: a concrete greeting and a concrete out-of-set intent. -/
theorem c7_non_count_intents_witness :
    (processQuery ctx0 env0 "hello" sqGreeting).dsl = .nullV ∧
    (processQuery ctx0 env0 "hello" sqGreeting).searchCalled = false ∧
    (processQuery ctx0 env0 "hello" sqGreeting).kibanaLink = none ∧
    (processQuery ctx0 env0 "hm" sqOther).dsl = .emptyObj ∧
    (processQuery ctx0 env0 "hm" sqOther).searchCalled = false ∧
    (processQuery ctx0 env0 "hm" sqOther).kibanaLink = none := by
  have hg := (c7_non_count_intents ctx0 env0 "hello" sqGreeting).1 (Or.inl (by decide))
  have hu := (c7_non_count_intents ctx0 env0 "hm" sqOther).2
    (by decide) (by decide) (by decide)
  exact ⟨hg.1, hg.2.2.1, hg.2.2.2.2, hu.1, hu.2.2.1, hu.2.2.2.2.1⟩

/-- Witness for C9 at the token "last_month". -/
theorem c9_label_vs_bound_witness :
    timeDesc (some "last_month") = "all time" ∧
    getDateRangeForDSL ctx0 "last_month" = getDateRangeForDSL ctx0 "last_hour" ∧
    buildMustClauses ctx0 [] (some "last_month") =
      (([] : List (String × JsValue)).map fun p => filterClause p.1 p.2) ++
        [.range "@timestamp" (.resolved
          { gte := ctx0.nowMs - hourMs, upperKind := .lte, upper := ctx0.nowMs })] :=
  c9_label_vs_bound ctx0 "last_month" [] (by decide) (by decide) (by decide)

end LogIntel
